import Mathlib

/-!
Verification development for the eotdl resumable chunked ingestion pipeline.

The definitions below are shallow embeddings of the Python source:
* `get_chunk_size` embeds `APIRepo.get_chunk_size` (eotdl/src/repos/APIRepo.py).
* `validate_name`, `validate_description` and `mkDataset` embed the pydantic
  validators of `Dataset` (apis/eotdl/src/models/dataset.py).
* `ingestDatasetChunk` embeds `IngestDatasetChunk.__call__`
  (apis/eotdl/src/usecases/datasets/IngestDatasetChunk.py), with the database
  and object-storage repositories modelled as explicit state.
* `build_tasks` embeds the task construction loop of
  `APIRepo.ingest_large_dataset_parallel`; `read_in_chunks` and `seq_dispatch`
  embed `APIRepo.read_in_chunks` and the dispatch loop of
  `APIRepo.ingest_large_dataset`.
* `put_part` models the server-side upload-session part acceptance, which is
  not part of the source tree (only its HTTP callers are).

Machine integers are modelled as `Nat`: Python integers are unbounded, so no
overflow wrapping is needed. Exceptions are modelled with `Except`; state
written before an exception is raised is preserved alongside the error, as in
the Python code where a raise does not undo earlier repository writes.
-/

/-- Ceiling division on naturals: the number of parts needed to cover `a`
bytes with parts of `b` bytes. -/
def ceil_div (a b : Nat) : Nat := (a + b - 1) / b

/-- Embeds `APIRepo.get_chunk_size` exactly as written: the initial value is
10 MiB; an `if content_size >= 100 GB` branch sets 100 MiB; an
`elif content_size >= 1 TB` branch sets 500 MiB. The `elif` is only reached
when the first test fails, exactly as in the Python `if`/`elif` chain. -/
def get_chunk_size (content_size : Nat) : Nat :=
  if content_size ≥ 1024 * 1024 * 1024 * 100 then 1024 * 1024 * 100
  else if content_size ≥ 1024 * 1024 * 1024 * 1000 then 1024 * 1024 * 500
  else 1024 * 1024 * 10

/-- The chunk-size policy table as the spec states it (spec §4.1): 10 MiB
below 100 GB, 100 MiB from 100 GB up to 1 TB, 500 MiB from 1 TB on. Written
from the spec's words, for comparison against `get_chunk_size`. -/
def spec_chunk_size (content_size : Nat) : Nat :=
  if content_size < 1024 * 1024 * 1024 * 100 then 1024 * 1024 * 10
  else if content_size < 1024 * 1024 * 1024 * 1000 then 1024 * 1024 * 100
  else 1024 * 1024 * 500

/-- Errors raised by the ingestion use case and the dataset model
(apis/eotdl/src/errors): `TierLimitError` carries the numeric cap that was
exceeded, as the Python message string does. -/
inductive IngestError where
  | tierLimit (cap : Nat)
  | datasetAlreadyExists
  | nameCharsValidationError
  | nameLengthValidationError
  | descriptionLengthValidationError
  deriving DecidableEq

/-- Decidable equality for `Except`, so that concrete runs of the embedded
fallible operations can be checked by `decide`. -/
instance exceptDecEq {ε α : Type} [DecidableEq ε] [DecidableEq α] :
    DecidableEq (Except ε α) := fun a b =>
  match a, b with
  | .error e, .error f =>
      if h : e = f then .isTrue (by rw [h])
      else .isFalse (fun k => h (by cases k; rfl))
  | .error _, .ok _ => .isFalse (fun k => Except.noConfusion k)
  | .ok _, .error _ => .isFalse (fun k => Except.noConfusion k)
  | .ok x, .ok y =>
      if h : x = y then .isTrue (by rw [h])
      else .isFalse (fun k => h (by cases k; rfl))

/-- Whether a character is matched by the regex class `[a-zA-Z]`. -/
def isAsciiLetter (c : Char) : Bool :=
  (97 ≤ c.toNat && c.toNat ≤ 122) || (65 ≤ c.toNat && c.toNat ≤ 90)

/-- Whether a character is matched by the regex class `[a-zA-Z0-9-]`. -/
def isNameChar (c : Char) : Bool :=
  isAsciiLetter c || (48 ≤ c.toNat && c.toNat ≤ 57) || c == '-'

/-- Whether `re.findall` on the validation regex `^[^a-zA-Z]{1}|[^a-zA-Z0-9-]`
finds any match in `name`: the first character is not an ASCII letter, or some
character lies outside letters, digits and hyphen. -/
def name_regex_matches (name : List Char) : Bool :=
  (match name with
   | [] => false
   | c :: _ => !isAsciiLetter c) || name.any (fun c => !isNameChar c)

/-- Embeds `validate_name` (models/dataset.py): the character-class check runs
first and raises `NameCharsValidationError`; then the length bounds 3..15
raise `NameLengthValidationError`; otherwise the name is returned. -/
def validate_name (name : List Char) : Except IngestError (List Char) :=
  if name_regex_matches name then .error .nameCharsValidationError
  else if name.length > 15 || name.length < 3 then .error .nameLengthValidationError
  else .ok name

/-- Embeds `validate_description` (models/dataset.py): length bounds 5..50. -/
def validate_description (description : List Char) : Except IngestError (List Char) :=
  if description.length > 50 || description.length < 5 then
    .error .descriptionLengthValidationError
  else .ok description

/-- Embeds the `Dataset` pydantic model (models/dataset.py) with its validated
fields; timestamps are omitted from the model. -/
structure Dataset where
  uid : String
  id : String
  name : List Char
  description : List Char
  tags : List String
  likes : Nat
  downloads : Nat
  deriving DecidableEq

/-- Embeds construction of `Dataset(...)`: the pydantic validators run
`validate_name` on `name` and `validate_description` on `description`; a
failure raises before the record exists. Remaining fields take their
pydantic defaults. -/
def mkDataset (uid id : String) (name description : List Char) :
    Except IngestError Dataset :=
  match validate_name name with
  | .error e => .error e
  | .ok n =>
    match validate_description description with
    | .error e => .error e
    | .ok d =>
      .ok { uid := uid, id := id, name := n, description := d,
            tags := [], likes := 0, downloads := 0 }

/-- Embeds the per-user record read from the `users` collection
(`User(**data)` with `user.tier`) and the `dataset_count` field touched by
`increase_counter`. -/
structure UserRec where
  tier : String
  dataset_count : Nat
  deriving DecidableEq

/-- Embeds `Limits.datasets` (`limits.datasets.upload`). -/
structure DatasetsLimits where
  upload : Nat
  deriving DecidableEq

/-- Embeds the `Limits` model built from `data['limits']` of a tier. -/
structure Limits where
  datasets : DatasetsLimits
  deriving DecidableEq

/-- Embeds a document of the `usage` collection: `Usage.DatasetIngested` has
`type = "dataset_ingested"`, the uid, and a payload naming the dataset id. -/
structure UsageRec where
  uid : String
  type : String
  dataset : String
  deriving DecidableEq

/-- The repositories seen by `IngestDatasetChunk`: the mongo collections it
touches (`users`, `tiers`, `usage`, `datasets`) and the object storage written
by `os_repo.persist_file_chunk`, plus the id that `db_repo.generate_id` will
return next (ObjectId generation writes nothing to the database). -/
structure SysState where
  users : String → UserRec
  tiers : String → Limits
  usage : List UsageRec
  datasets : List Dataset
  storage : List (String × List Nat × Nat)
  next_id : String

/-- Embeds `IngestDatasetChunk.Inputs`. The chunk is a byte list. -/
structure Inputs where
  name : List Char
  description : List Char
  chunk : List Nat
  uid : String
  id : Option String
  is_last : Bool
  size : Nat

/-- Embeds `IngestDatasetChunk.Outputs`: `dataset` and `id` both optional. -/
structure Outputs where
  dataset : Option Dataset
  id : Option String
  deriving DecidableEq

/-- Embeds `len(usage)` after
`db_repo.find_in_time_range('usage', uid, 'dataset_ingested', 'type')`: the
count of usage records for this uid of type `dataset_ingested` (the time
window itself lives in the database layer, outside the source tree). -/
def usage_count (s : SysState) (uid : String) : Nat :=
  (s.usage.filter (fun u => u.uid == uid && u.type == "dataset_ingested")).length

/-- Embeds `limits.datasets.upload` for the caller's tier, read through
`db_repo.retrieve('users', uid, 'uid')` and
`db_repo.find_one_by_name('tiers', user.tier)`. -/
def upload_cap (s : SysState) (uid : String) : Nat :=
  ((s.tiers (s.users uid).tier).datasets).upload

/-- Embeds `os_repo.persist_file_chunk(chunk, id, size)`: the chunk bytes are
appended to object storage under the given id. -/
def persist_file_chunk (s : SysState) (chunk : List Nat) (id : String) (size : Nat) :
    SysState :=
  { s with storage := s.storage ++ [(id, chunk, size)] }

/-- Embeds lines 42-54 of `IngestDatasetChunk.__call__`, the part after the
admission block, with `id` already resolved: persist the chunk, and on the
last chunk build the `Dataset` (running its validators), persist it, bump the
user's `dataset_count` and append the usage record. A validation failure
raises after the chunk was persisted, as in the source, so the error is
returned together with the already-updated state. -/
def finish_chunk (s : SysState) (id : String) (inp : Inputs) :
    Except IngestError Outputs × SysState :=
  let s1 := persist_file_chunk s inp.chunk id inp.size
  if inp.is_last then
    match mkDataset inp.uid id inp.name inp.description with
    | .error e => (.error e, s1)
    | .ok dataset =>
      let s2 := { s1 with datasets := s1.datasets ++ [dataset] }
      let s3 := { s2 with
        users := fun u =>
          if u == inp.uid then
            { tier := (s2.users u).tier,
              dataset_count := (s2.users u).dataset_count + 1 }
          else s2.users u }
      let s4 := { s3 with
        usage := s3.usage ++ [{ uid := inp.uid, type := "dataset_ingested", dataset := id }] }
      (.ok { dataset := some dataset, id := none }, s4)
  else (.ok { dataset := none, id := some id }, s1)

/-- Embeds `IngestDatasetChunk.__call__`: when no session id is supplied, the
tier/usage admission check runs (`TierLimitError` carrying the cap when
`len(usage) + 1 >= limits.datasets.upload`), then the name-uniqueness check
(`DatasetAlreadyExistsError`), then a fresh id is generated; with a session id
both checks are skipped. Then the chunk is persisted and, if it is the last
one, the dataset record is committed. -/
def ingestDatasetChunk (s : SysState) (inp : Inputs) :
    Except IngestError Outputs × SysState :=
  match inp.id with
  | some i => finish_chunk s i inp
  | none =>
    if usage_count s inp.uid + 1 ≥ upload_cap s inp.uid then
      (.error (.tierLimit (upload_cap s inp.uid)), s)
    else if s.datasets.any (fun d => d.name == inp.name) then
      (.error .datasetAlreadyExists, s)
    else
      finish_chunk s s.next_id inp

/-- Embeds the task-building loop of `APIRepo.ingest_large_dataset_parallel`:
starting from `offset = 0`, while `offset < content_size`, compute
`chunk_end = min(offset + chunk_size, content_size)` and
`part = offset // chunk_size + 1`, emit the task `(offset, chunk_end, part)`
when `part` is not among the already-received `parts`, and continue from
`chunk_end`. Part identifiers are modelled as naturals (the source stringifies
them for the HTTP header). The Python loop does not terminate when
`chunk_size = 0`; the guard `0 < chunk_size` makes the model total there. -/
def build_tasks (content_size chunk_size : Nat) (parts : List Nat) (offset : Nat) :
    List (Nat × Nat × Nat) :=
  if _h : offset < content_size ∧ 0 < chunk_size then
    let chunk_end := min (offset + chunk_size) content_size
    let part := offset / chunk_size + 1
    (if part ∈ parts then [] else [(offset, chunk_end, part)]) ++
      build_tasks content_size chunk_size parts chunk_end
  else []
termination_by content_size - offset
decreasing_by
  have h1 : offset < min (offset + chunk_size) content_size := by omega
  omega

/-- Embeds `APIRepo.read_in_chunks`: repeatedly read `chunk_size` bytes until
the file is exhausted; a zero read (including `read(0)`) ends the stream. -/
def read_in_chunks : List Nat → Nat → List (List Nat)
  | _, 0 => []
  | [], _ + 1 => []
  | a :: rest, ch + 1 =>
    (a :: rest).take (ch + 1) :: read_in_chunks ((a :: rest).drop (ch + 1)) (ch + 1)
termination_by content _ => content.length
decreasing_by
  simp
  omega

/-- Embeds the dispatch loop of `APIRepo.ingest_large_dataset`: for each chunk
yielded by `read_in_chunks`, compute `part = index // chunk_size + 1`, post
the chunk when `part not in parts`, and advance `index` by the chunk length.
The result lists the `(part_number, chunk)` pairs actually posted. -/
def seq_dispatch (ch : Nat) (parts : List Nat) :
    List (List Nat) → Nat → List (Nat × List Nat)
  | [], _ => []
  | c :: rest, index =>
    (if index / ch + 1 ∈ parts then [] else [(index / ch + 1, c)]) ++
      seq_dispatch ch parts rest (index + c.length)

/-- Modelled from the spec: the server-side Upload Session Manager's session
record (spec §3, §4.2) is not part of the source tree (only its HTTP callers
are). It tracks the received part numbers and the bytes persisted through the
Storage Backend Adapter. -/
structure UploadSession where
  upload_id : String
  received_parts : List Nat
  stored : List (Nat × List Nat)
  deriving DecidableEq

/-- Result of a `put_part` call: accepted, or rejected for a checksum
mismatch. -/
inductive PutPartResult where
  | ok
  | checksumMismatch
  deriving DecidableEq

/-- Modelled from the spec: `put_part(upload_id, part_number, bytes,
part_checksum)` of the Upload Session Manager (spec §4.2), which is not under
the source tree. It verifies the checksum against the bytes (the Checksum
Engine is the parameter `hf`); on mismatch it rejects and leaves the session
unchanged; if the part number was already received it is a no-op success;
otherwise it persists the bytes and records the part number. -/
def put_part (hf : List Nat → Nat) (sess : UploadSession) (part_number : Nat)
    (bytes : List Nat) (part_checksum : Nat) : PutPartResult × UploadSession :=
  if part_checksum ≠ hf bytes then (.checksumMismatch, sess)
  else if part_number ∈ sess.received_parts then (.ok, sess)
  else (.ok, { sess with
    stored := sess.stored ++ [(part_number, bytes)],
    received_parts := part_number :: sess.received_parts })

/-- A concrete system state whose tier cap is far from exhausted. -/
def s_quota_ok : SysState :=
  { users := fun _ => { tier := "free", dataset_count := 0 },
    tiers := fun _ => { datasets := { upload := 100 } },
    usage := [], datasets := [], storage := [], next_id := "id0" }

/-- A concrete system state with a tier cap of 2 and two existing
`dataset_ingested` usage records for user `u1`. -/
def s_quota_full : SysState :=
  { users := fun _ => { tier := "free", dataset_count := 0 },
    tiers := fun _ => { datasets := { upload := 2 } },
    usage := [{ uid := "u1", type := "dataset_ingested", dataset := "d1" },
              { uid := "u1", type := "dataset_ingested", dataset := "d2" }],
    datasets := [], storage := [], next_id := "id0" }

/-- A final-chunk request with a 2-character (invalid) name and no session. -/
def inp_bad_name_last : Inputs :=
  { name := "ab".toList, description := "hello".toList, chunk := [7],
    uid := "u1", id := none, is_last := true, size := 1 }

/-- A non-final chunk request with a 2-character (invalid) name. -/
def inp_bad_name_mid : Inputs :=
  { name := "ab".toList, description := "hello".toList, chunk := [7],
    uid := "u1", id := none, is_last := false, size := 1 }

/-- A resumed final-chunk request with a 2-character (invalid) name. -/
def inp_resumed_bad_name : Inputs :=
  { name := "ab".toList, description := "hello".toList, chunk := [7],
    uid := "u1", id := some "sess", is_last := true, size := 1 }

/-- A resumed final-chunk request with a valid name and a 2-character
(invalid) description. -/
def inp_resumed_bad_desc : Inputs :=
  { name := "abc".toList, description := "hi".toList, chunk := [7],
    uid := "u1", id := some "sess", is_last := true, size := 1 }

/-- A fresh first-chunk request with a valid name and no session id. -/
def inp_new_session : Inputs :=
  { name := "abc".toList, description := "hello".toList, chunk := [7],
    uid := "u1", id := none, is_last := false, size := 1 }

/-- A resumed non-final chunk request carrying an existing session id. -/
def inp_resumed_mid : Inputs :=
  { name := "abc".toList, description := "hello".toList, chunk := [7],
    uid := "u1", id := some "sess", is_last := false, size := 1 }

theorem name_regex_matches_false_cons (c : Char) (cs : List Char) :
    name_regex_matches (c :: cs) = false ↔
      (isAsciiLetter c = true ∧ ∀ x ∈ c :: cs, isNameChar x = true) := by
  simp [name_regex_matches, List.any_eq_false]

theorem validate_name_ok_conditions (name : List Char) :
    validate_name name = .ok name ↔
      (name_regex_matches name = false ∧ 3 ≤ name.length ∧ name.length ≤ 15) := by
  unfold validate_name
  split_ifs with h1 h2
  · constructor
    · intro hk; exact absurd hk (by simp)
    · rintro ⟨hr, _, _⟩; rw [h1] at hr; exact absurd hr (by simp)
  · simp only [Bool.or_eq_true, decide_eq_true_eq] at h2
    constructor
    · intro hk; exact absurd hk (by simp)
    · rintro ⟨_, h3, h15⟩; exact ((by omega : False)).elim
  · simp only [Bool.or_eq_true, decide_eq_true_eq, not_or] at h2
    push_neg at h2
    constructor
    · intro _; exact ⟨Bool.eq_false_iff.mpr h1, by omega, by omega⟩
    · intro _; rfl

theorem validate_name_ok_iff (name : List Char) :
    validate_name name = .ok name ↔
      (3 ≤ name.length ∧ name.length ≤ 15 ∧
       (∃ c cs, name = c :: cs ∧ isAsciiLetter c = true) ∧
       ∀ c ∈ name, isNameChar c = true) := by
  rw [validate_name_ok_conditions]
  rcases name with _ | ⟨c, cs⟩
  · simp
  · rw [name_regex_matches_false_cons]
    constructor
    · rintro ⟨⟨hc, hall⟩, h3, h15⟩
      exact ⟨h3, h15, ⟨c, cs, rfl, hc⟩, hall⟩
    · rintro ⟨h3, h15, ⟨c2, cs2, heq, hc⟩, hall⟩
      injection heq with e1 e2
      subst e1
      subst e2
      exact ⟨⟨hc, hall⟩, h3, h15⟩

theorem validate_description_ok_iff (d : List Char) :
    validate_description d = .ok d ↔ (5 ≤ d.length ∧ d.length ≤ 50) := by
  unfold validate_description
  split_ifs with h
  · simp only [Bool.or_eq_true, decide_eq_true_eq] at h
    constructor
    · intro hk; exact absurd hk (by simp)
    · rintro ⟨h5, h50⟩; exact ((by omega : False)).elim
  · simp only [Bool.or_eq_true, decide_eq_true_eq, not_or] at h
    push_neg at h
    constructor
    · intro _; exact ⟨by omega, by omega⟩
    · intro _; rfl

theorem mkDataset_error_not_tierLimit (uid id : String) (n d : List Char)
    (c : Nat) : mkDataset uid id n d ≠ .error (.tierLimit c) := by
  unfold mkDataset validate_name validate_description
  split_ifs <;> simp

theorem mkDataset_error_not_datasetExists (uid id : String) (n d : List Char) :
    mkDataset uid id n d ≠ .error .datasetAlreadyExists := by
  unfold mkDataset validate_name validate_description
  split_ifs <;> simp

theorem finish_chunk_fst_indep (s1 s2 : SysState) (i : String) (inp : Inputs) :
    (finish_chunk s1 i inp).1 = (finish_chunk s2 i inp).1 := by
  unfold finish_chunk
  by_cases hl : inp.is_last = true
  · simp only [hl, if_true]
    cases mkDataset inp.uid i inp.name inp.description <;> rfl
  · simp only [Bool.not_eq_true] at hl
    simp only [hl, Bool.false_eq_true, if_false]

theorem finish_chunk_not_tierLimit (s : SysState) (i : String) (inp : Inputs)
    (c : Nat) : (finish_chunk s i inp).1 ≠ .error (.tierLimit c) := by
  unfold finish_chunk
  by_cases hl : inp.is_last = true
  · simp only [hl, if_true]
    rcases h : mkDataset inp.uid i inp.name inp.description with e | ds
    · intro k
      simp only [Except.error.injEq] at k
      subst k
      exact mkDataset_error_not_tierLimit inp.uid i inp.name inp.description c h
    · simp
  · simp only [Bool.not_eq_true] at hl
    simp [hl]

theorem finish_chunk_not_datasetExists (s : SysState) (i : String) (inp : Inputs) :
    (finish_chunk s i inp).1 ≠ .error .datasetAlreadyExists := by
  unfold finish_chunk
  by_cases hl : inp.is_last = true
  · simp only [hl, if_true]
    rcases h : mkDataset inp.uid i inp.name inp.description with e | ds
    · intro k
      simp only [Except.error.injEq] at k
      subst k
      exact mkDataset_error_not_datasetExists inp.uid i inp.name inp.description h
    · simp
  · simp only [Bool.not_eq_true] at hl
    simp [hl]

theorem finish_chunk_not_last (s : SysState) (i : String) (inp : Inputs)
    (hl : inp.is_last = false) :
    finish_chunk s i inp =
      (.ok { dataset := none, id := some i },
       { s with storage := s.storage ++ [(i, inp.chunk, inp.size)] }) := by
  unfold finish_chunk persist_file_chunk
  simp [hl]

/-- C1: the chunk planner departs from the spec's policy table. At one
terabyte of content the code returns 100 MiB, not the table's 500 MiB: the
`elif content_size >= 1 TB` branch is unreachable because the preceding
`if content_size >= 100 GB` branch already captures every such size, so the
two definitions disagree. -/
theorem chunk_planner_departs_from_policy_table :
    get_chunk_size (1024 * 1024 * 1024 * 1000) = 1024 * 1024 * 100 ∧
    spec_chunk_size (1024 * 1024 * 1024 * 1000) = 1024 * 1024 * 500 ∧
    ¬ (∀ s, get_chunk_size s = spec_chunk_size s) :=
  ⟨by decide, by decide,
   fun h => absurd (h (1024 * 1024 * 1024 * 1000)) (by decide)⟩

/-- C3: the planned part count is not bounded by max_parts = 10000. One byte
below the 100 GB threshold the planner still picks 10 MiB chunks, which needs
10240 parts, exceeding the object-storage ceiling the code's own comment says
it avoids. -/
theorem chunk_plan_exceeds_max_parts :
    get_chunk_size (1024 * 1024 * 1024 * 100 - 1) = 1024 * 1024 * 10 ∧
    ceil_div (1024 * 1024 * 1024 * 100 - 1)
      (get_chunk_size (1024 * 1024 * 1024 * 100 - 1)) = 10240 ∧
    10000 < 10240 := by
  refine ⟨by decide, ?_, by decide⟩
  decide

/-- C7: name validation accepts exactly the strings of 3 to 15 characters
over letters, digits and hyphens whose first character is a letter, and
description validation accepts exactly the strings of 5 to 50 characters;
"ab" fails with the length error, "2ab" with the character-class error, and
"abc" is accepted. -/
theorem name_description_validation_exact :
    (∀ name : List Char, validate_name name = .ok name ↔
      (3 ≤ name.length ∧ name.length ≤ 15 ∧
       (∃ c cs, name = c :: cs ∧ isAsciiLetter c = true) ∧
       ∀ c ∈ name, isNameChar c = true)) ∧
    (∀ d : List Char, validate_description d = .ok d ↔
      (5 ≤ d.length ∧ d.length ≤ 50)) ∧
    validate_name "ab".toList = .error .nameLengthValidationError ∧
    validate_name "2ab".toList = .error .nameCharsValidationError ∧
    validate_name "abc".toList = .ok "abc".toList :=
  ⟨validate_name_ok_iff, validate_description_ok_iff,
   by decide, by decide, by decide⟩

/-- C4: at session creation (no session id), the call is denied with a
`TierLimitError` carrying the tier's numeric cap exactly when
`count + 1 ≥ cap`, where `count` is the number of `dataset_ingested` usage
records for the caller; any `TierLimitError` it raises carries that cap. -/
theorem tier_limit_admission_iff (s : SysState) (inp : Inputs)
    (h : inp.id = none) :
    (((ingestDatasetChunk s inp).1 =
        .error (.tierLimit (upload_cap s inp.uid))) ↔
      usage_count s inp.uid + 1 ≥ upload_cap s inp.uid) ∧
    ∀ c, (ingestDatasetChunk s inp).1 = .error (.tierLimit c) →
      c = upload_cap s inp.uid := by
  unfold ingestDatasetChunk
  simp only [h]
  split_ifs with hq hn
  · simp only [hq]
    constructor
    · simp
    · intro c hc
      simp only [Except.error.injEq, IngestError.tierLimit.injEq] at hc
      omega
  · constructor
    · constructor
      · intro hc; simp at hc
      · intro hc; exact absurd hc hq
    · intro c hc; simp at hc
  · constructor
    · constructor
      · intro hc; exact absurd hc (finish_chunk_not_tierLimit s s.next_id inp _)
      · intro hc; exact absurd hc hq
    · intro c hc; exact absurd hc (finish_chunk_not_tierLimit s s.next_id inp c)

/-- Witness for C4: with a cap of 2 and two existing `dataset_ingested`
records for the user, a fresh first-chunk ingestion is rejected with
`TierLimitError` carrying the cap 2. -/
theorem tier_limit_admission_iff_witness :
    inp_new_session.id = none ∧
    ((((ingestDatasetChunk s_quota_full inp_new_session).1 =
        .error (.tierLimit (upload_cap s_quota_full inp_new_session.uid))) ↔
      usage_count s_quota_full inp_new_session.uid + 1 ≥
        upload_cap s_quota_full inp_new_session.uid) ∧
     ∀ c, (ingestDatasetChunk s_quota_full inp_new_session).1 =
        .error (.tierLimit c) → c = upload_cap s_quota_full inp_new_session.uid) ∧
    (ingestDatasetChunk s_quota_full inp_new_session).1 = .error (.tierLimit 2) :=
  ⟨rfl, tier_limit_admission_iff s_quota_full inp_new_session rfl, by decide⟩

/-- C6: a chunk-ingestion call carrying an existing session id never raises
`TierLimitError`, and its outcome is unchanged under arbitrary replacement of
the usage log and the tier table, since the admission block is skipped. -/
theorem resumed_chunk_skips_admission (s : SysState) (u : List UsageRec)
    (t : String → Limits) (inp : Inputs) (i : String) (h : inp.id = some i) :
    (∀ c, (ingestDatasetChunk s inp).1 ≠ .error (.tierLimit c)) ∧
    (ingestDatasetChunk { s with usage := u, tiers := t } inp).1 =
      (ingestDatasetChunk s inp).1 := by
  unfold ingestDatasetChunk
  simp only [h]
  exact ⟨fun c => finish_chunk_not_tierLimit s i inp c,
         finish_chunk_fst_indep { s with usage := u, tiers := t } s i inp⟩

/-- Witness for C6: a resumed chunk call under the exhausted-quota state is
not tier-limited, and swapping in an empty usage log does not change its
outcome. -/
theorem resumed_chunk_skips_admission_witness :
    inp_resumed_mid.id = some "sess" ∧
    (∀ c, (ingestDatasetChunk s_quota_full inp_resumed_mid).1 ≠
      .error (.tierLimit c)) ∧
    (ingestDatasetChunk { s_quota_full with usage := [], tiers := (fun _ => { datasets := { upload := 0 } }) } inp_resumed_mid).1 =
      (ingestDatasetChunk s_quota_full inp_resumed_mid).1 :=
  ⟨rfl,
   (resumed_chunk_skips_admission s_quota_full []
     (fun _ => { datasets := { upload := 0 } }) inp_resumed_mid "sess" rfl).1,
   (resumed_chunk_skips_admission s_quota_full []
     (fun _ => { datasets := { upload := 0 } }) inp_resumed_mid "sess" rfl).2⟩

/-- C9: when a first-chunk call (no session id) fails with `TierLimitError`
or `DatasetAlreadyExistsError`, the system state is returned unchanged: both
checks precede every write. -/
theorem admission_errors_leave_state_unchanged (s : SysState) (inp : Inputs)
    (hid : inp.id = none)
    (h : (∃ c, (ingestDatasetChunk s inp).1 = .error (.tierLimit c)) ∨
         (ingestDatasetChunk s inp).1 = .error .datasetAlreadyExists) :
    (ingestDatasetChunk s inp).2 = s := by
  unfold ingestDatasetChunk at h ⊢
  simp only [hid] at h ⊢
  by_cases hq : usage_count s inp.uid + 1 ≥ upload_cap s inp.uid
  · rw [if_pos hq]
  · rw [if_neg hq] at h ⊢
    by_cases hn : (s.datasets.any fun d => d.name == inp.name) = true
    · rw [if_pos hn]
    · rw [if_neg hn] at h ⊢
      exfalso
      rcases h with ⟨c, hc⟩ | hc
      · exact finish_chunk_not_tierLimit s s.next_id inp c hc
      · exact finish_chunk_not_datasetExists s s.next_id inp hc

/-- Witness for C9: the concrete tier-limited first-chunk call leaves the
exhausted-quota state exactly as it was. -/
theorem admission_errors_leave_state_unchanged_witness :
    inp_new_session.id = none ∧
    (ingestDatasetChunk s_quota_full inp_new_session).1 =
      .error (.tierLimit 2) ∧
    (ingestDatasetChunk s_quota_full inp_new_session).2 = s_quota_full :=
  ⟨rfl, by decide,
   admission_errors_leave_state_unchanged s_quota_full inp_new_session rfl
     (Or.inl ⟨2, by decide⟩)⟩

/-- C10: a successful non-final chunk call has storing the chunk bytes under
the session id as its only persistent effect: the datasets, usage, users and
tier tables are untouched, and the output carries the session id with no
dataset. The id is the one supplied, or the freshly generated one when the
call opened the session. -/
theorem non_final_chunk_only_stores_bytes (s : SysState) (inp : Inputs)
    (out : Outputs) (hl : inp.is_last = false)
    (h : (ingestDatasetChunk s inp).1 = .ok out) :
    ∃ i, (inp.id = some i ∨ (inp.id = none ∧ i = s.next_id)) ∧
      out = { dataset := none, id := some i } ∧
      (ingestDatasetChunk s inp).2 =
        { s with storage := s.storage ++ [(i, inp.chunk, inp.size)] } := by
  unfold ingestDatasetChunk at *
  rcases hid : inp.id with _ | i
  · simp only [hid] at h ⊢
    by_cases hq : usage_count s inp.uid + 1 ≥ upload_cap s inp.uid
    · rw [if_pos hq] at h
      exact absurd h (by simp)
    · rw [if_neg hq] at h ⊢
      by_cases hn : (s.datasets.any fun d => d.name == inp.name) = true
      · rw [if_pos hn] at h
        exact absurd h (by simp)
      · rw [if_neg hn] at h ⊢
        refine ⟨s.next_id, Or.inr ⟨trivial, rfl⟩, ?_, ?_⟩
        · rw [finish_chunk_not_last s s.next_id inp hl] at h
          simp only [Except.ok.injEq] at h
          exact h.symm
        · rw [finish_chunk_not_last s s.next_id inp hl]
  · simp only [hid] at h ⊢
    refine ⟨i, Or.inl rfl, ?_, ?_⟩
    · rw [finish_chunk_not_last s i inp hl] at h
      simp only [Except.ok.injEq] at h
      exact h.symm
    · rw [finish_chunk_not_last s i inp hl]

/-- Witness for C10: a concrete successful non-final first chunk stores the
bytes under the generated id and changes nothing else. -/
theorem non_final_chunk_only_stores_bytes_witness :
    inp_new_session.is_last = false ∧
    (ingestDatasetChunk s_quota_ok inp_new_session).1 =
      .ok { dataset := none, id := some "id0" } ∧
    ∃ i, (inp_new_session.id = some i ∨
          (inp_new_session.id = none ∧ i = s_quota_ok.next_id)) ∧
      ({ dataset := none, id := some "id0" } : Outputs) =
        { dataset := none, id := some i } ∧
      (ingestDatasetChunk s_quota_ok inp_new_session).2 =
        { s_quota_ok with storage :=
            s_quota_ok.storage ++ [(i, inp_new_session.chunk, inp_new_session.size)] } :=
  ⟨rfl, by decide,
   non_final_chunk_only_stores_bytes s_quota_ok inp_new_session
     { dataset := none, id := some "id0" } rfl (by decide)⟩

/-- C5 is false as stated: a request with an invalid name is not rejected
before storage I/O. The final-chunk call with the 2-character name "ab"
raises the length validation error, yet the chunk bytes are in storage; the
non-final call with the same invalid name is not rejected at all and also
persists the chunk. -/
theorem invalid_name_chunk_still_persisted :
    (ingestDatasetChunk s_quota_ok inp_bad_name_last).1 =
      .error .nameLengthValidationError ∧
    (ingestDatasetChunk s_quota_ok inp_bad_name_last).2.storage =
      [("id0", [7], 1)] ∧
    (ingestDatasetChunk s_quota_ok inp_bad_name_mid).1 =
      .ok { dataset := none, id := some "id0" } ∧
    (ingestDatasetChunk s_quota_ok inp_bad_name_mid).2.storage =
      [("id0", [7], 1)] := by
  refine ⟨by decide, by decide, by decide, by decide⟩

/-- C5 (amended): a name or description that fails validation causes the
final-chunk call to be rejected at dataset construction — the name validator
failing with its error, or the name validator passing and the description
validator failing with its error — and this happens only after the chunk's
bytes were persisted: the failing call returns the validation error with the
chunk appended to storage and no other state change. -/
theorem validation_failure_rejected_after_chunk_persisted (s : SysState)
    (inp : Inputs) (i : String) (e : IngestError)
    (hid : inp.id = some i) (hl : inp.is_last = true)
    (hval : validate_name inp.name = .error e ∨
      ((∃ n, validate_name inp.name = .ok n) ∧
        validate_description inp.description = .error e)) :
    (ingestDatasetChunk s inp).1 = .error e ∧
    (ingestDatasetChunk s inp).2 =
      { s with storage := s.storage ++ [(i, inp.chunk, inp.size)] } := by
  unfold ingestDatasetChunk
  simp only [hid]
  unfold finish_chunk persist_file_chunk mkDataset
  rcases hval with hname | ⟨⟨n, hname⟩, hdesc⟩
  · rw [hname]
    simp [hl]
  · rw [hname, hdesc]
    simp [hl]

/-- Witness for C5 (amended): the concrete resumed final-chunk call with the
2-character name "ab" fails with the name length error, and the one with the
valid name "abc" but 2-character description "hi" fails with the description
length error; in both cases the chunk sits in storage. -/
theorem validation_failure_rejected_after_chunk_persisted_witness :
    (inp_resumed_bad_name.id = some "sess" ∧
     inp_resumed_bad_name.is_last = true ∧
     validate_name inp_resumed_bad_name.name = .error .nameLengthValidationError ∧
     (ingestDatasetChunk s_quota_ok inp_resumed_bad_name).1 =
       .error .nameLengthValidationError ∧
     (ingestDatasetChunk s_quota_ok inp_resumed_bad_name).2 =
       { s_quota_ok with storage :=
           s_quota_ok.storage ++
             [("sess", inp_resumed_bad_name.chunk, inp_resumed_bad_name.size)] }) ∧
    (inp_resumed_bad_desc.id = some "sess" ∧
     inp_resumed_bad_desc.is_last = true ∧
     validate_description inp_resumed_bad_desc.description =
       .error .descriptionLengthValidationError ∧
     (ingestDatasetChunk s_quota_ok inp_resumed_bad_desc).1 =
       .error .descriptionLengthValidationError ∧
     (ingestDatasetChunk s_quota_ok inp_resumed_bad_desc).2 =
       { s_quota_ok with storage :=
           s_quota_ok.storage ++
             [("sess", inp_resumed_bad_desc.chunk, inp_resumed_bad_desc.size)] }) :=
  ⟨⟨rfl, rfl, by decide,
    (validation_failure_rejected_after_chunk_persisted s_quota_ok
      inp_resumed_bad_name "sess" .nameLengthValidationError rfl rfl
      (Or.inl (by decide))).1,
    (validation_failure_rejected_after_chunk_persisted s_quota_ok
      inp_resumed_bad_name "sess" .nameLengthValidationError rfl rfl
      (Or.inl (by decide))).2⟩,
   ⟨rfl, rfl, by decide,
    (validation_failure_rejected_after_chunk_persisted s_quota_ok
      inp_resumed_bad_desc "sess" .descriptionLengthValidationError rfl rfl
      (Or.inr ⟨⟨"abc".toList, by decide⟩, by decide⟩)).1,
    (validation_failure_rejected_after_chunk_persisted s_quota_ok
      inp_resumed_bad_desc "sess" .descriptionLengthValidationError rfl rfl
      (Or.inr ⟨⟨"abc".toList, by decide⟩, by decide⟩)).2⟩⟩

theorem put_part_mem_noop (hf : List Nat → Nat) (sess : UploadSession) (p : Nat)
    (b : List Nat) (hm : p ∈ sess.received_parts) :
    put_part hf sess p b (hf b) = (.ok, sess) := by
  unfold put_part
  rw [if_neg (by simp), if_pos hm]

theorem put_part_mem_after (hf : List Nat → Nat) (sess : UploadSession) (p : Nat)
    (b : List Nat) : p ∈ (put_part hf sess p b (hf b)).2.received_parts := by
  unfold put_part
  rw [if_neg (by simp)]
  by_cases hm : p ∈ sess.received_parts
  · rw [if_pos hm]; exact hm
  · rw [if_neg hm]; exact List.mem_cons_self p _

/-- C2: sending the same part twice with identical bytes and the matching
checksum makes the second `put_part` a no-op success: it returns ok, the
session is exactly the state left by the first call, the `received_parts`
set does not change in size, and the stored bytes are not duplicated. -/
theorem put_part_retry_noop (hf : List Nat → Nat) (sess : UploadSession)
    (p : Nat) (b : List Nat) :
    put_part hf (put_part hf sess p b (hf b)).2 p b (hf b) =
      (.ok, (put_part hf sess p b (hf b)).2) ∧
    (put_part hf (put_part hf sess p b (hf b)).2 p b (hf b)).2.received_parts.length =
      (put_part hf sess p b (hf b)).2.received_parts.length ∧
    (put_part hf (put_part hf sess p b (hf b)).2 p b (hf b)).2.stored =
      (put_part hf sess p b (hf b)).2.stored := by
  have h := put_part_mem_noop hf (put_part hf sess p b (hf b)).2 p b
    (put_part_mem_after hf sess p b)
  rw [h]
  exact ⟨rfl, rfl, rfl⟩

theorem ceil_div_le_iff (a b k : Nat) (hb : 0 < b) :
    ceil_div a b ≤ k ↔ a ≤ k * b := by
  unfold ceil_div
  rw [Nat.div_le_iff_le_mul_add_pred hb, Nat.mul_comm]
  omega

theorem build_tasks_at_end (cs ch : Nat) (parts : List Nat) (off : Nat)
    (h : ¬ off < cs) : build_tasks cs ch parts off = [] := by
  unfold build_tasks
  rw [dif_neg]
  intro k
  exact h k.1

theorem build_tasks_formula (cs ch : Nat) (parts : List Nat) (hch : 0 < ch) :
    ∀ m k, ceil_div cs ch - k ≤ m →
      build_tasks cs ch parts (k * ch) =
        ((List.range' (k + 1) (ceil_div cs ch - k)).filter
            (fun p => decide (p ∉ parts))).map
          (fun p => ((p - 1) * ch, min (p * ch) cs, p)) := by
  intro m
  induction m with
  | zero =>
    intro k hk
    have hN : ceil_div cs ch ≤ k := by omega
    have hcs : cs ≤ k * ch := (ceil_div_le_iff cs ch k hch).mp hN
    rw [build_tasks_at_end cs ch parts (k * ch) (by omega)]
    rw [Nat.sub_eq_zero_of_le hN]
    rfl
  | succ m ih =>
    intro k hk
    by_cases hlt : k * ch < cs
    · have hkN : k + 1 ≤ ceil_div cs ch := by
        by_contra hco
        push_neg at hco
        have := (ceil_div_le_iff cs ch k hch).mp (by omega)
        omega
      unfold build_tasks
      rw [dif_pos ⟨hlt, hch⟩]
      dsimp only
      have hpart : k * ch / ch = k := Nat.mul_div_cancel k hch
      rw [hpart]
      have hsplit : ceil_div cs ch - k = (ceil_div cs ch - (k + 1)) + 1 := by omega
      rw [hsplit, List.range'_succ, List.filter_cons]
      by_cases hend : (k + 1) * ch ≤ cs
      · have hmin : min (k * ch + ch) cs = (k + 1) * ch := by
          rw [Nat.succ_mul] at hend ⊢
          omega
        by_cases hp : (k + 1) ∈ parts
        · rw [if_pos hp, if_neg (by simp [hp])]
          rw [List.nil_append, hmin, ih (k + 1) (by omega)]
        · rw [if_neg hp, if_pos (by simp [hp])]
          rw [List.map_cons, List.singleton_append]
          rw [hmin, ih (k + 1) (by omega)]
          congr 2
          rw [Nat.min_eq_left hend]
      · have hmin : min (k * ch + ch) cs = cs := by
          rw [Nat.succ_mul] at hend
          omega
        have hN1 : ceil_div cs ch ≤ k + 1 :=
          (ceil_div_le_iff cs ch (k + 1) hch).mpr (by omega)
        have hzero : ceil_div cs ch - (k + 1) = 0 := by omega
        rw [hmin, build_tasks_at_end cs ch parts cs (by omega), hzero,
          List.range'_zero, List.filter_nil]
        by_cases hp : (k + 1) ∈ parts
        · rw [if_pos hp, if_neg (by simp [hp])]
          rfl
        · rw [if_neg hp, if_pos (by simp [hp])]
          rw [List.map_cons, List.map_nil, List.append_nil]
          congr 2
          rw [Nat.min_eq_right (by omega : cs ≤ (k + 1) * ch)]
    · have hN : ceil_div cs ch ≤ k :=
        (ceil_div_le_iff cs ch k hch).mpr (by omega)
      rw [build_tasks_at_end cs ch parts (k * ch) hlt]
      rw [Nat.sub_eq_zero_of_le hN]
      rfl

theorem read_in_chunks_nil (ch : Nat) : read_in_chunks [] ch = [] := by
  cases ch with
  | zero => simp [read_in_chunks]
  | succ n => simp [read_in_chunks]

theorem read_in_chunks_cons (a : Nat) (rest : List Nat) (ch0 : Nat) :
    read_in_chunks (a :: rest) (ch0 + 1) =
      (a :: rest).take (ch0 + 1) ::
        read_in_chunks ((a :: rest).drop (ch0 + 1)) (ch0 + 1) := by
  rw [read_in_chunks]

theorem ceil_div_zero_left (b : Nat) (hb : 0 < b) : ceil_div 0 b = 0 := by
  unfold ceil_div
  exact Nat.div_eq_of_lt (by omega)

theorem ceil_div_sub_step (l b : Nat) (hb : 0 < b) (hl : b ≤ l) :
    ceil_div l b = ceil_div (l - b) b + 1 := by
  unfold ceil_div
  have e1 : l + b - 1 = (l - 1) + b := by omega
  have e2 : l - b + b - 1 = l - 1 := by omega
  rw [e1, e2, Nat.add_div_right _ hb]

theorem read_in_chunks_flatten_aux (ch0 : Nat) :
    ∀ n (content : List Nat), content.length ≤ n →
      (read_in_chunks content (ch0 + 1)).flatten = content := by
  intro n
  induction n with
  | zero =>
    intro content h
    have hc : content = [] := List.length_eq_zero.mp (by omega)
    subst hc
    rw [read_in_chunks_nil]
    rfl
  | succ n ih =>
    intro content h
    rcases content with _ | ⟨a, rest⟩
    · rw [read_in_chunks_nil]
      rfl
    · rw [read_in_chunks_cons, List.flatten_cons]
      rw [ih ((a :: rest).drop (ch0 + 1)) (by
        rw [List.length_drop]
        simp only [List.length_cons] at h ⊢
        omega)]
      exact List.take_append_drop _ _

theorem read_in_chunks_flatten (ch : Nat) (hch : 0 < ch) (content : List Nat) :
    (read_in_chunks content ch).flatten = content := by
  obtain ⟨ch0, rfl⟩ : ∃ c, ch = c + 1 := ⟨ch - 1, by omega⟩
  exact read_in_chunks_flatten_aux ch0 content.length content le_rfl

theorem seq_dispatch_formula (ch : Nat) (hch : 0 < ch) (parts : List Nat) :
    ∀ n (content : List Nat), content.length ≤ n → ∀ k,
      seq_dispatch ch parts (read_in_chunks content ch) (k * ch) =
        ((List.range' (k + 1) (ceil_div content.length ch)).filter
            (fun p => decide (p ∉ parts))).map
          (fun p => (p, (content.drop ((p - 1 - k) * ch)).take ch)) := by
  obtain ⟨ch0, rfl⟩ : ∃ c, ch = c + 1 := ⟨ch - 1, by omega⟩
  intro n
  induction n with
  | zero =>
    intro content hlen k
    have hc : content = [] := List.length_eq_zero.mp (by omega)
    subst hc
    rw [read_in_chunks_nil]
    rw [List.length_nil, ceil_div_zero_left (ch0 + 1) (by omega)]
    rw [List.range'_zero, List.filter_nil, List.map_nil]
    rfl
  | succ n ih =>
    intro content hlen k
    rcases content with _ | ⟨a, rest⟩
    · rw [read_in_chunks_nil]
      rw [List.length_nil, ceil_div_zero_left (ch0 + 1) (by omega)]
      rw [List.range'_zero, List.filter_nil, List.map_nil]
      rfl
    · rw [read_in_chunks_cons]
      show (if k * (ch0 + 1) / (ch0 + 1) + 1 ∈ parts then []
            else [(k * (ch0 + 1) / (ch0 + 1) + 1, (a :: rest).take (ch0 + 1))]) ++
          seq_dispatch (ch0 + 1) parts
            (read_in_chunks ((a :: rest).drop (ch0 + 1)) (ch0 + 1))
            (k * (ch0 + 1) + ((a :: rest).take (ch0 + 1)).length) = _
      rw [Nat.mul_div_cancel k (by omega : 0 < ch0 + 1)]
      by_cases hbig : (a :: rest).length ≤ ch0 + 1
      · have hdrop : (a :: rest).drop (ch0 + 1) = [] := List.drop_eq_nil_of_le hbig
        rw [hdrop, read_in_chunks_nil]
        have hone : ceil_div (a :: rest).length (ch0 + 1) = 1 := by
          have ha : ceil_div (a :: rest).length (ch0 + 1) ≤ 1 :=
            (ceil_div_le_iff _ _ 1 (by omega)).mpr (by omega)
          have hb : ¬ ceil_div (a :: rest).length (ch0 + 1) ≤ 0 := by
            intro hc
            have := (ceil_div_le_iff _ _ 0 (by omega)).mp hc
            simp only [List.length_cons] at this
            omega
          omega
        rw [hone, List.range'_one, List.filter_cons, List.filter_nil]
        by_cases hp : (k + 1) ∈ parts
        · rw [if_pos hp, if_neg (by simp [hp])]
          rfl
        · rw [if_neg hp, if_pos (by simp [hp])]
          simp only [List.map_cons, List.map_nil]
          have hidx : k + 1 - 1 - k = 0 := by omega
          rw [hidx, Nat.zero_mul, List.drop_zero]
          rfl
      · push_neg at hbig
        have htake : ((a :: rest).take (ch0 + 1)).length = ch0 + 1 := by
          rw [List.length_take]
          omega
        rw [htake, ← Nat.succ_mul]
        have hlen2 : ((a :: rest).drop (ch0 + 1)).length ≤ n := by
          rw [List.length_drop]
          simp only [List.length_cons] at hlen ⊢
          omega
        have hih := ih ((a :: rest).drop (ch0 + 1)) hlen2 (k + 1)
        rw [List.length_drop] at hih
        rw [hih]
        have hceil : ceil_div (a :: rest).length (ch0 + 1) =
            ceil_div ((a :: rest).length - (ch0 + 1)) (ch0 + 1) + 1 :=
          ceil_div_sub_step _ _ (by omega) (by omega)
        rw [hceil, List.range'_succ, List.filter_cons]
        by_cases hp : (k + 1) ∈ parts
        · rw [if_pos hp, if_neg (by simp [hp])]
          rw [List.nil_append]
          apply List.map_congr_left
          intro p hpf
          have hpm : k + 1 + 1 ≤ p := by
            have := List.mem_of_mem_filter hpf
            obtain ⟨i, hi, rfl⟩ := List.mem_range'.mp this
            omega
          have e1 : p - 1 - k = (p - 1 - (k + 1)) + 1 := by omega
          rw [List.drop_drop, e1, Nat.succ_mul, Nat.add_comm ((p - 1 - (k + 1)) * (ch0 + 1))]
        · rw [if_neg hp, if_pos (by simp [hp])]
          rw [List.map_cons, List.singleton_append]
          congr 1
          · have hidx : k + 1 - 1 - k = 0 := by omega
            rw [hidx, Nat.zero_mul, List.drop_zero]
          · apply List.map_congr_left
            intro p hpf
            have hpm : k + 1 + 1 ≤ p := by
              have := List.mem_of_mem_filter hpf
              obtain ⟨i, hi, rfl⟩ := List.mem_range'.mp this
              omega
            have e1 : p - 1 - k = (p - 1 - (k + 1)) + 1 := by omega
            rw [List.drop_drop, e1, Nat.succ_mul, Nat.add_comm ((p - 1 - (k + 1)) * (ch0 + 1))]

/-- C8: both uploaders dispatch a part exactly when it is missing. The
parallel task builder emits, in order, one task per part number from 1 to
`ceil(content_size / chunk_size)` that is not in the received list, with the
consecutive byte range `[(p-1)*chunk_size, min(p*chunk_size, content_size))`;
the sequential loop posts exactly the chunks of the missing part numbers,
where part `p` carries bytes `content[(p-1)*chunk_size : p*chunk_size]`; and
the chunks seen by the sequential loop concatenate back to the whole file, so
every part has `chunk_size` bytes except possibly the last. -/
theorem uploader_dispatches_exactly_missing_parts (cs ch : Nat)
    (parts : List Nat) (content : List Nat) (hch : 0 < ch) :
    build_tasks cs ch parts 0 =
      ((List.range' 1 (ceil_div cs ch)).filter (fun p => decide (p ∉ parts))).map
        (fun p => ((p - 1) * ch, min (p * ch) cs, p)) ∧
    seq_dispatch ch parts (read_in_chunks content ch) 0 =
      ((List.range' 1 (ceil_div content.length ch)).filter
          (fun p => decide (p ∉ parts))).map
        (fun p => (p, (content.drop ((p - 1) * ch)).take ch)) ∧
    (read_in_chunks content ch).flatten = content := by
  refine ⟨?_, ?_, read_in_chunks_flatten ch hch content⟩
  · have h := build_tasks_formula cs ch parts hch (ceil_div cs ch) 0 (by omega)
    simp only [Nat.zero_mul, Nat.zero_add, Nat.sub_zero] at h
    exact h
  · have h := seq_dispatch_formula ch hch parts content.length content le_rfl 0
    simp only [Nat.zero_mul, Nat.zero_add, Nat.sub_zero] at h
    exact h

/-- Witness for C8: a 25-byte file with 10-byte chunks and part 2 already
received dispatches exactly parts 1 and 3 in both uploaders. -/
theorem uploader_dispatches_exactly_missing_parts_witness :
    (0 : Nat) < 10 ∧
    build_tasks 25 10 [2] 0 =
      ((List.range' 1 (ceil_div 25 10)).filter
          (fun p => decide (p ∉ ([2] : List Nat)))).map
        (fun p => ((p - 1) * 10, min (p * 10) 25, p)) ∧
    seq_dispatch 10 [2]
        (read_in_chunks [1, 2, 3, 4, 5, 6, 7, 8, 9, 10, 11, 12] 10) 0 =
      ((List.range' 1
          (ceil_div ([1, 2, 3, 4, 5, 6, 7, 8, 9, 10, 11, 12] : List Nat).length 10)).filter
          (fun p => decide (p ∉ ([2] : List Nat)))).map
        (fun p => (p,
          (([1, 2, 3, 4, 5, 6, 7, 8, 9, 10, 11, 12] : List Nat).drop ((p - 1) * 10)).take 10)) ∧
    (read_in_chunks [1, 2, 3, 4, 5, 6, 7, 8, 9, 10, 11, 12] 10).flatten =
      [1, 2, 3, 4, 5, 6, 7, 8, 9, 10, 11, 12] :=
  ⟨by decide,
   uploader_dispatches_exactly_missing_parts 25 10 [2]
     [1, 2, 3, 4, 5, 6, 7, 8, 9, 10, 11, 12] (by decide)⟩
